import Mathlib

/-!
Verification development for the finance-report-app repository.

The definitions below are shallow embeddings of the Python source:
numeric values computed with Python floats are modelled as exact
rationals (`ℚ`) except where a claim genuinely needs real-valued
exponentiation (the RSSI path-loss formula), which is modelled over `ℝ`.
-/

namespace FinanceApp

/-! ## Loan amortization (ft3.py, `show_amortization`) -/

/-- The repayment-frequency choices offered by the `show_amortization`
selectbox in ft3.py. -/
inductive Frequency where
  | mensuelle
  | trimestrielle
  | semestrielle
  | annuelle
deriving DecidableEq, Repr

/-- The `periods_per_year` dictionary of `show_amortization`. -/
def periodsPerYear : Frequency → ℕ
  | .mensuelle => 12
  | .trimestrielle => 4
  | .semestrielle => 2
  | .annuelle => 1

/-- One row of the amortization schedule: the list
`[month, payment, principal_payment, interest, balance]` appended by
`show_amortization` (DataFrame columns Période, Paiement, Capital,
Intérêts, Solde). -/
structure AmortRow where
  periode : ℕ
  paiement : ℚ
  capital : ℚ
  interets : ℚ
  solde : ℚ
deriving DecidableEq, Repr

/-- The grace-period loop of `show_amortization`: for each month
`1 .. grace`, only interest `balance * (rate / 12)` is paid, the
principal column is `0.0` and the balance is unchanged. -/
def graceRows (principal rate : ℚ) (grace : ℕ) : List AmortRow :=
  (List.range grace).map fun m =>
    { periode := m + 1
      paiement := principal * (rate / 12)
      capital := 0
      interets := principal * (rate / 12)
      solde := principal }

/-- The main repayment loop of `show_amortization`: each period computes
`interest = balance * periodic_rate`,
`principal_payment = payment - interest`, decreases the balance by the
principal payment and appends the row with the balance clamped by
`max(0.0, balance)`. -/
def amortRows (payment q : ℚ) : ℚ → ℕ → ℕ → List AmortRow
  | _, _, 0 => []
  | balance, month, n + 1 =>
    let interest := balance * q
    let principalPayment := payment - interest
    let balance1 := balance - principalPayment
    { periode := month
      paiement := payment
      capital := principalPayment
      interets := interest
      solde := max 0 balance1 } :: amortRows payment q balance1 (month + 1) n

/-- The schedule built by `show_amortization` in ft3.py: with
`periods = term * periods_per_year[frequency]` and
`periodic_rate = rate / periods_per_year[frequency]`, when
`principal > 0 and rate > 0 and term > 0` the annuity payment is
`principal * (periodic_rate * (1 + periodic_rate)**periods) /
((1 + periodic_rate)**periods - 1)` and the schedule is the grace rows
followed by the repayment rows; otherwise no schedule is produced. -/
def show_amortization (principal rate : ℚ) (term : ℕ) (frequency : Frequency)
    (grace_period : ℕ) : List AmortRow :=
  let ppy := periodsPerYear frequency
  let periods := term * ppy
  let periodic_rate := rate / (ppy : ℚ)
  if 0 < principal ∧ 0 < rate ∧ 0 < term then
    let payment := principal * (periodic_rate * (1 + periodic_rate) ^ periods) /
      ((1 + periodic_rate) ^ periods - 1)
    graceRows principal rate grace_period ++
      amortRows payment periodic_rate principal (grace_period + 1) periods
  else []

/-- The running balance after `n` iterations of the repayment loop,
starting from `b`: each iteration replaces `b` by
`b - (payment - b * q) = b * (1 + q) - payment`. -/
def balAfter (payment q : ℚ) : ℚ → ℕ → ℚ
  | b, 0 => b
  | b, n + 1 => balAfter payment q (b * (1 + q) - payment) n

theorem amortRows_capital_sum (payment q : ℚ) :
    ∀ (n : ℕ) (b : ℚ) (m : ℕ),
      ((amortRows payment q b m n).map AmortRow.capital).sum
        = b - balAfter payment q b n := by
  intro n
  induction n with
  | zero => intro b m; simp [amortRows, balAfter]
  | succ k ih =>
    intro b m
    simp only [amortRows, List.map_cons, List.sum_cons, balAfter]
    rw [show b - (payment - b * q) = b * (1 + q) - payment by ring, ih]
    ring

theorem balAfter_closed_form (payment q : ℚ) :
    ∀ (n : ℕ) (b : ℚ),
      balAfter payment q b n
        = b * (1 + q) ^ n - payment * ∑ j ∈ Finset.range n, (1 + q) ^ j := by
  intro n
  induction n with
  | zero => intro b; simp [balAfter]
  | succ k ih =>
    intro b
    rw [balAfter, ih, Finset.sum_range_succ]
    ring

theorem mul_geom_sum_one_add (q : ℚ) (n : ℕ) :
    q * ∑ j ∈ Finset.range n, (1 + q) ^ j = (1 + q) ^ n - 1 := by
  induction n with
  | zero => simp
  | succ k ih =>
    rw [Finset.sum_range_succ, mul_add, ih, pow_succ]
    ring

theorem balAfter_annuity_zero (P q : ℚ) (n : ℕ) (hq : 0 < q) (hn : 0 < n) :
    balAfter (P * (q * (1 + q) ^ n) / ((1 + q) ^ n - 1)) q P n = 0 := by
  have hpow : (1 : ℚ) < (1 + q) ^ n :=
    one_lt_pow₀ (by linarith) hn.ne'
  have hD : (1 + q) ^ n - 1 ≠ 0 := by linarith
  have hS : ∑ j ∈ Finset.range n, (1 + q) ^ j = ((1 + q) ^ n - 1) / q := by
    rw [eq_div_iff hq.ne', mul_comm, mul_geom_sum_one_add]
  rw [balAfter_closed_form, hS]
  field_simp
  ring

theorem amortRows_solde_nonneg (payment q : ℚ) :
    ∀ (n : ℕ) (b : ℚ) (m : ℕ) (row : AmortRow),
      row ∈ amortRows payment q b m n → 0 ≤ row.solde := by
  intro n
  induction n with
  | zero => intro b m row h; simp [amortRows] at h
  | succ k ih =>
    intro b m row h
    simp only [amortRows, List.mem_cons] at h
    rcases h with h | h
    · subst h; exact le_max_left 0 _
    · exact ih _ _ _ h

/-- C1: for every credit with principal `P > 0`, annual rate `r > 0` and
integer term `> 0` (any repayment frequency, grace period `0`), the
'Capital' column of the amortization schedule built by
`show_amortization` sums exactly to the original principal `P`, under
exact rational arithmetic. -/
theorem amortization_capital_sum_eq_principal
    (principal rate : ℚ) (term : ℕ) (frequency : Frequency)
    (hP : 0 < principal) (hr : 0 < rate) (ht : 0 < term) :
    ((show_amortization principal rate term frequency 0).map AmortRow.capital).sum
      = principal := by
  unfold show_amortization
  rw [if_pos ⟨hP, hr, ht⟩]
  simp only [graceRows, List.range_zero, List.map_nil, List.nil_append]
  have hppy : (0 : ℚ) < (periodsPerYear frequency : ℚ) := by
    cases frequency <;> norm_num [periodsPerYear]
  have hq : 0 < rate / (periodsPerYear frequency : ℚ) := div_pos hr hppy
  have hn : 0 < term * periodsPerYear frequency := by
    cases frequency <;> simp [periodsPerYear] <;> omega
  rw [amortRows_capital_sum,
    balAfter_annuity_zero principal _ _ hq hn, sub_zero]

/-- Witness for C1 at a concrete credit: principal 1000, rate 10%,
term 1 year, annual repayment. -/
theorem amortization_capital_sum_eq_principal_witness :
    (0 : ℚ) < 1000 ∧ (0 : ℚ) < 1 / 10 ∧ (0 : ℕ) < 1 ∧
      ((show_amortization 1000 (1 / 10) 1 .annuelle 0).map AmortRow.capital).sum
        = 1000 :=
  ⟨by norm_num, by norm_num, by norm_num,
    amortization_capital_sum_eq_principal 1000 (1 / 10) 1 .annuelle
      (by norm_num) (by norm_num) (by norm_num)⟩

/-- C2: for every input with principal `> 0`, rate `> 0` and term `> 0`,
every balance ('Solde') entry recorded in the schedule built by
`show_amortization` is non-negative (each repayment row appends
`max(0, balance)`, and each grace row appends the unchanged positive
principal). -/
theorem amortization_solde_nonneg
    (principal rate : ℚ) (term : ℕ) (frequency : Frequency) (grace_period : ℕ)
    (hP : 0 < principal) (hr : 0 < rate) (ht : 0 < term) :
    ∀ row ∈ show_amortization principal rate term frequency grace_period,
      0 ≤ row.solde := by
  intro row hrow
  unfold show_amortization at hrow
  rw [if_pos ⟨hP, hr, ht⟩] at hrow
  rcases List.mem_append.mp hrow with h | h
  · simp only [graceRows, List.mem_map, List.mem_range] at h
    obtain ⟨m, _, rfl⟩ := h
    exact hP.le
  · exact amortRows_solde_nonneg _ _ _ _ _ _ h

/-- Witness for C2 at a concrete credit with a nonzero grace period. -/
theorem amortization_solde_nonneg_witness :
    (0 : ℚ) < 500 ∧ (0 : ℚ) < 1 / 20 ∧ (0 : ℕ) < 2 ∧
      ∀ row ∈ show_amortization 500 (1 / 20) 2 .mensuelle 3, 0 ≤ row.solde :=
  ⟨by norm_num, by norm_num, by norm_num,
    amortization_solde_nonneg 500 (1 / 20) 2 .mensuelle 3
      (by norm_num) (by norm_num) (by norm_num)⟩

/-! ## WiFi analyzer (wifi_analyzer.py) -/

/-- The fields of an access-point dictionary produced by
`get_wifi_profiles` (ssid, bssid, signal_percent, rssi, frequency,
security). -/
structure AccessPoint where
  ssid : String
  bssid : String
  signal_percent : ℤ
  rssi : ℚ
  frequency : ℚ
  security : String
deriving DecidableEq, Repr

/-- The fields of a device dictionary read by the positioning code:
`device.get('distance', default)` and `device.get('mac', ...)`.
A `none` field models an absent dictionary key. -/
structure Device where
  distance : Option ℚ
  mac : Option String
deriving DecidableEq, Repr

/-- Python's `device.get('distance', default)`. -/
def getDistance (device : Device) (default : ℚ) : ℚ :=
  device.distance.getD default

/-- `WiFiNetworkAnalyzer._trilaterate`: with fewer than three access
points it returns `(0.0, 0.0)`; otherwise it uses the hardcoded anchor
positions `p1 = (0, 0)`, `p2 = (100, 0)`, `p3 = (50, 86.6)`, reads
`r1 = device.get('distance', 10)`, `r2 = device.get('distance', 15)`,
`r3 = device.get('distance', 20)`, and solves the linearized system,
returning `(25.0, 25.0)` on a zero divisor (the `ZeroDivisionError`
handler). -/
def trilaterate (device : Device) (access_points : List AccessPoint) : ℚ × ℚ :=
  if access_points.length < 3 then (0, 0)
  else
    let p1 : ℚ × ℚ := (0, 0)
    let p2 : ℚ × ℚ := (100, 0)
    let p3 : ℚ × ℚ := (50, 866 / 10)
    let r1 := getDistance device 10
    let r2 := getDistance device 15
    let r3 := getDistance device 20
    let A := 2 * (p2.1 - p1.1)
    let B := 2 * (p2.2 - p1.2)
    let C := r1 ^ 2 - r2 ^ 2 - p1.1 ^ 2 + p2.1 ^ 2 - p1.2 ^ 2 + p2.2 ^ 2
    let D := 2 * (p3.1 - p2.1)
    let E := 2 * (p3.2 - p2.2)
    let F := r2 ^ 2 - r3 ^ 2 - p2.1 ^ 2 + p3.1 ^ 2 - p2.2 ^ 2 + p3.2 ^ 2
    if E * A - B * D = 0 ∨ A * E - B * D = 0 then (25, 25)
    else ((C * E - F * B) / (E * A - B * D), (A * F - D * C) / (A * E - B * D))

/-- `WiFiNetworkAnalyzer._convert_signal_percent_to_rssi`: linear
conversion of a signal percentage to an approximate RSSI, clamped to
`[-90.0, -30.0]`. -/
def convert_signal_percent_to_rssi (signal_percent : ℤ) : ℚ :=
  if signal_percent ≤ 0 then -90
  else if 100 ≤ signal_percent then -30
  else -90 + (signal_percent : ℚ) * (6 / 10)

/-- One history entry appended by the monitoring loop of
`start_real_time_monitoring`: a timestamp plus the scanned access
points and devices. -/
structure Snapshot where
  timestamp : ℕ
  access_points : List AccessPoint
  devices : List Device
deriving DecidableEq, Repr

/-- One iteration of the `monitor_loop` body acting on `self.history`:
append the new snapshot, then `self.history.pop(0)` when the length
exceeds 100. -/
def monitorStep (history : List Snapshot) (snap : Snapshot) : List Snapshot :=
  let h := history ++ [snap]
  if h.length > 100 then h.drop 1 else h

theorem trilaterate_const (d : ℚ) (m : Option String) (aps : List AccessPoint)
    (h : 3 ≤ aps.length) :
    trilaterate ⟨some d, m⟩ aps = (50, 124989 / 4330) := by
  unfold trilaterate
  rw [if_neg (by omega)]
  simp only [getDistance, Option.getD_some]
  norm_num

/-- C5: the trilateration output is determined entirely by the hardcoded
anchor coordinates: for every device dictionary containing a 'distance'
key and any two lists of at least three access points, two runs of
`_trilaterate` return the same `(x, y)` point, independent of the access
points' contents and of the device's distance value. -/
theorem trilaterate_independent_of_inputs
    (d1 d2 : ℚ) (m1 m2 : Option String) (aps1 aps2 : List AccessPoint)
    (h1 : 3 ≤ aps1.length) (h2 : 3 ≤ aps2.length) :
    trilaterate ⟨some d1, m1⟩ aps1 = trilaterate ⟨some d2, m2⟩ aps2 := by
  rw [trilaterate_const d1 m1 aps1 h1, trilaterate_const d2 m2 aps2 h2]

/-- Witness for C5: two concrete, entirely different scans yield the same
point. -/
theorem trilaterate_independent_of_inputs_witness :
    3 ≤ ([⟨"a", "", 10, -40, 24 / 10, ""⟩, ⟨"b", "", 20, -50, 5, ""⟩,
        ⟨"c", "", 30, -60, 24 / 10, ""⟩] : List AccessPoint).length ∧
    3 ≤ ([⟨"x", "m", 1, -80, 5, "WPA"⟩, ⟨"y", "m", 2, -81, 5, "WPA"⟩,
        ⟨"z", "m", 3, -82, 5, "WPA"⟩] : List AccessPoint).length ∧
    trilaterate ⟨some 7, some "aa:bb"⟩
        [⟨"a", "", 10, -40, 24 / 10, ""⟩, ⟨"b", "", 20, -50, 5, ""⟩,
          ⟨"c", "", 30, -60, 24 / 10, ""⟩]
      = trilaterate ⟨some 99, none⟩
        [⟨"x", "m", 1, -80, 5, "WPA"⟩, ⟨"y", "m", 2, -81, 5, "WPA"⟩,
          ⟨"z", "m", 3, -82, 5, "WPA"⟩] :=
  ⟨by decide, by decide,
    trilaterate_independent_of_inputs 7 99 (some "aa:bb") none _ _
      (by decide) (by decide)⟩

/-- C10: one iteration of the monitoring loop appends exactly one
snapshot and removes the oldest entry if the length exceeds 100, so
`len(history) ≤ 100` is preserved by every iteration. -/
theorem monitorStep_preserves_length_le_100
    (history : List Snapshot) (snap : Snapshot)
    (h : history.length ≤ 100) :
    (monitorStep history snap).length ≤ 100 := by
  unfold monitorStep
  dsimp only
  split <;> simp_all

/-- Witness for C10 at the empty history and a concrete snapshot. -/
theorem monitorStep_preserves_length_le_100_witness :
    ([] : List Snapshot).length ≤ 100 ∧
      (monitorStep [] ⟨0, [], []⟩).length ≤ 100 :=
  ⟨by decide, monitorStep_preserves_length_le_100 [] ⟨0, [], []⟩ (by decide)⟩

theorem convert_rssi_range (p : ℤ) :
    -90 ≤ convert_signal_percent_to_rssi p ∧
      convert_signal_percent_to_rssi p ≤ -30 := by
  unfold convert_signal_percent_to_rssi
  split_ifs with h1 h2
  · norm_num
  · norm_num
  · push_neg at h1 h2
    have q1 : (1 : ℚ) ≤ (p : ℚ) := by exact_mod_cast h1
    have q2 : (p : ℚ) ≤ 99 := by exact_mod_cast (by omega : p ≤ 99)
    constructor <;> nlinarith

theorem convert_rssi_mono (p q : ℤ) (h : p ≤ q) :
    convert_signal_percent_to_rssi p ≤ convert_signal_percent_to_rssi q := by
  rcases le_or_lt p 0 with hp | hp
  · have hfp : convert_signal_percent_to_rssi p = -90 := by
      unfold convert_signal_percent_to_rssi
      rw [if_pos hp]
    rw [hfp]
    exact (convert_rssi_range q).1
  · rcases le_or_lt 100 q with hq | hq
    · have hfq : convert_signal_percent_to_rssi q = -30 := by
        unfold convert_signal_percent_to_rssi
        rw [if_neg (by omega), if_pos hq]
      rw [hfq]
      exact (convert_rssi_range p).2
    · have hq0 : 0 < q := lt_of_lt_of_le hp h
      have hp100 : p < 100 := lt_of_le_of_lt h hq
      unfold convert_signal_percent_to_rssi
      rw [if_neg (show ¬p ≤ 0 by omega), if_neg (show ¬100 ≤ p by omega),
        if_neg (show ¬q ≤ 0 by omega), if_neg (show ¬100 ≤ q by omega)]
      have hpq : (p : ℚ) ≤ (q : ℚ) := by exact_mod_cast h
      linarith

/-- C9: `_convert_signal_percent_to_rssi` returns exactly `-90.0` for
every `signal_percent ≤ 0`, exactly `-30.0` for every
`signal_percent ≥ 100`, and `-90.0 + 0.6 * signal_percent` (strictly
between `-90.0` and `-30.0`) for every integer in between; its result
always lies in `[-90.0, -30.0]`, and it is monotone non-decreasing. -/
theorem convert_signal_percent_to_rssi_spec (p q : ℤ) :
    (p ≤ 0 → convert_signal_percent_to_rssi p = -90) ∧
    (100 ≤ p → convert_signal_percent_to_rssi p = -30) ∧
    (0 < p → p < 100 →
      convert_signal_percent_to_rssi p = -90 + (p : ℚ) * (6 / 10) ∧
      -90 < convert_signal_percent_to_rssi p ∧
      convert_signal_percent_to_rssi p < -30) ∧
    (-90 ≤ convert_signal_percent_to_rssi p ∧
      convert_signal_percent_to_rssi p ≤ -30) ∧
    (p ≤ q → convert_signal_percent_to_rssi p ≤ convert_signal_percent_to_rssi q) := by
  refine ⟨?_, ?_, ?_, convert_rssi_range p, convert_rssi_mono p q⟩
  · intro hp
    unfold convert_signal_percent_to_rssi
    rw [if_pos hp]
  · intro hp
    unfold convert_signal_percent_to_rssi
    rw [if_neg (by omega), if_pos hp]
  · intro hp0 hp100
    have heq : convert_signal_percent_to_rssi p = -90 + (p : ℚ) * (6 / 10) := by
      unfold convert_signal_percent_to_rssi
      rw [if_neg (by omega), if_neg (by omega)]
    have q1 : (1 : ℚ) ≤ (p : ℚ) := by exact_mod_cast hp0
    have q2 : (p : ℚ) ≤ 99 := by exact_mod_cast (by omega : p ≤ 99)
    refine ⟨heq, ?_, ?_⟩ <;> rw [heq] <;> nlinarith

/-- Witness for C9 at concrete percentages `-5`, `120`, `50`, and the
monotone pair `10 ≤ 60`. -/
theorem convert_signal_percent_to_rssi_spec_witness :
    convert_signal_percent_to_rssi (-5) = -90 ∧
    convert_signal_percent_to_rssi 120 = -30 ∧
    (convert_signal_percent_to_rssi 50 = -90 + (50 : ℚ) * (6 / 10) ∧
      -90 < convert_signal_percent_to_rssi 50 ∧
      convert_signal_percent_to_rssi 50 < -30) ∧
    convert_signal_percent_to_rssi 10 ≤ convert_signal_percent_to_rssi 60 :=
  ⟨(convert_signal_percent_to_rssi_spec (-5) 0).1 (by decide),
    (convert_signal_percent_to_rssi_spec 120 0).2.1 (by decide),
    (convert_signal_percent_to_rssi_spec 50 0).2.2.1 (by decide) (by decide),
    (convert_signal_percent_to_rssi_spec 10 60).2.2.2.2 (by decide)⟩

section RssiDistance

open Classical

/-- `WiFiNetworkAnalyzer.calculate_rssi_distance`: returns `-1.0` for
`rssi == 0`; otherwise with reference RSSI `-30` dBm and path-loss
exponent `2.5` when `frequency == 2.4` and `3.0` otherwise, returns
`1.0` when `rssi >= -30`, else `10 ** ((-30 - rssi) / (10 * n))`,
multiplied by `0.8` when `frequency == 5.0`, capped by
`min(distance, 100.0)`.  Modelled over `ℝ` since the source uses
`math.pow` with a real exponent; the equality tests on `frequency` use
classical decidability. -/
noncomputable def calculate_rssi_distance (rssi frequency : ℝ) : ℝ :=
  if rssi = 0 then -1
  else
    let rssi_ref : ℝ := -30
    let path_loss_exponent : ℝ := if frequency = 2.4 then 2.5 else 3.0
    if rssi_ref ≤ rssi then 1
    else
      let distance := (10 : ℝ) ^ ((rssi_ref - rssi) / (10 * path_loss_exponent))
      let distance1 := if frequency = 5.0 then distance * 0.8 else distance
      min distance1 100

theorem rssi_distance_cases (rssi frequency : ℝ) :
    (rssi < -30 → calculate_rssi_distance rssi frequency =
      min ((10 : ℝ) ^ ((-30 - rssi) / (10 * (if frequency = 2.4 then 2.5 else 3.0))) *
        (if frequency = 5.0 then 0.8 else 1)) 100) ∧
    (-30 ≤ rssi → rssi ≠ 0 → calculate_rssi_distance rssi frequency = 1) ∧
    (calculate_rssi_distance 0 frequency = -1) := by
  classical
  refine ⟨?_, ?_, ?_⟩
  · intro h
    have h0 : rssi ≠ 0 := by intro e; rw [e] at h; norm_num at h
    unfold calculate_rssi_distance
    dsimp only
    rw [if_neg h0, if_neg (not_le.mpr h)]
    split_ifs <;> ring_nf
  · intro hge hne
    unfold calculate_rssi_distance
    dsimp only
    rw [if_neg hne, if_pos hge]
  · unfold calculate_rssi_distance
    rw [if_pos rfl]

/-- C3: case-by-case closed form of `calculate_rssi_distance`: for
`rssi < -30` it is `min` of the log-distance value (times `0.8` at 5 GHz)
and `100`; for `-30 ≤ rssi ≠ 0` it is `1.0`; for `rssi = 0` it is
`-1.0`. -/
theorem calculate_rssi_distance_spec (rssi frequency : ℝ) :
    (rssi < -30 → calculate_rssi_distance rssi frequency =
      min ((10 : ℝ) ^ ((-30 - rssi) / (10 * (if frequency = 2.4 then 2.5 else 3.0))) *
        (if frequency = 5.0 then 0.8 else 1)) 100) ∧
    (-30 ≤ rssi → rssi ≠ 0 → calculate_rssi_distance rssi frequency = 1) ∧
    (calculate_rssi_distance 0 frequency = -1) :=
  rssi_distance_cases rssi frequency

/-- Witness for C3 at `rssi = -40, -20, 0` with `frequency = 2.4`. -/
theorem calculate_rssi_distance_spec_witness :
    calculate_rssi_distance (-40) 2.4 =
      min ((10 : ℝ) ^ (((-30 : ℝ) - (-40)) / (10 * (if (2.4 : ℝ) = 2.4 then 2.5 else 3.0))) *
        (if (2.4 : ℝ) = 5.0 then 0.8 else 1)) 100 ∧
    calculate_rssi_distance (-20) 2.4 = 1 ∧
    calculate_rssi_distance 0 2.4 = -1 :=
  ⟨(calculate_rssi_distance_spec (-40) 2.4).1 (by norm_num),
    (calculate_rssi_distance_spec (-20) 2.4).2.1 (by norm_num) (by norm_num),
    (calculate_rssi_distance_spec 0 2.4).2.2⟩

/-- Counterexample for C8 as stated: at `rssi = -31`, `frequency = 5.0`
the returned distance is `0.8 · 10^(1/30) ≈ 0.864 < 1`, below the claimed
1-meter minimum. -/
theorem calculate_rssi_distance_range_counterexample :
    (-31 : ℝ) ≠ 0 ∧
      ¬(1 ≤ calculate_rssi_distance (-31) 5.0 ∧
        calculate_rssi_distance (-31) 5.0 ≤ 100) := by
  classical
  have key : (10 : ℝ) ^ ((1 : ℝ) / 30) < 5 / 4 := by
    have h30 : ((10 : ℝ) ^ ((1 : ℝ) / 30)) ^ (30 : ℕ) = 10 := by
      rw [← Real.rpow_natCast ((10 : ℝ) ^ ((1 : ℝ) / 30)) 30,
        ← Real.rpow_mul (by norm_num : (0 : ℝ) ≤ 10)]
      norm_num
    have hlt : ((10 : ℝ) ^ ((1 : ℝ) / 30)) ^ (30 : ℕ) < (5 / 4 : ℝ) ^ (30 : ℕ) := by
      rw [h30]; norm_num
    exact lt_of_pow_lt_pow_left₀ 30 (by norm_num) hlt
  have hval : calculate_rssi_distance (-31) 5.0 < 1 := by
    unfold calculate_rssi_distance
    dsimp only
    rw [if_neg (by norm_num), if_neg (by norm_num),
      if_neg (by norm_num : ¬(5.0 : ℝ) = 2.4), if_pos rfl]
    have he : ((-30 : ℝ) - -31) / (10 * 3.0) = 1 / 30 := by norm_num
    rw [he]
    have : (10 : ℝ) ^ ((1 : ℝ) / 30) * 0.8 < 1 := by nlinarith
    exact lt_of_le_of_lt (min_le_left _ _) this
  exact ⟨by norm_num, fun hc => absurd hc.1 (not_le.mpr hval)⟩

/-- C8 amended: for every `rssi ≠ 0`, the distance lies in `[1, 100]`
when `frequency ≠ 5.0`, and in `[0.8, 100]` when `frequency = 5.0` (the
5 GHz calibration factor `0.8` can push the result below the 1-meter
floor). -/
theorem calculate_rssi_distance_range (rssi frequency : ℝ) (h0 : rssi ≠ 0) :
    (frequency ≠ 5.0 →
      1 ≤ calculate_rssi_distance rssi frequency ∧
        calculate_rssi_distance rssi frequency ≤ 100) ∧
    (frequency = 5.0 →
      0.8 ≤ calculate_rssi_distance rssi frequency ∧
        calculate_rssi_distance rssi frequency ≤ 100) := by
  classical
  rcases le_or_lt (-30) rssi with hge | hlt
  · have h1 : calculate_rssi_distance rssi frequency = 1 :=
      (rssi_distance_cases rssi frequency).2.1 hge h0
    rw [h1]
    norm_num
  · have hform := (rssi_distance_cases rssi frequency).1 hlt
    have hexp : (0 : ℝ) ≤ (-30 - rssi) / (10 * (if frequency = 2.4 then 2.5 else 3.0)) := by
      apply div_nonneg (by linarith)
      split_ifs <;> norm_num
    have hpow : (1 : ℝ) ≤ (10 : ℝ) ^ ((-30 - rssi) / (10 * (if frequency = 2.4 then 2.5 else 3.0))) := by
      calc (1 : ℝ) = (10 : ℝ) ^ (0 : ℝ) := (Real.rpow_zero 10).symm
        _ ≤ _ := Real.rpow_le_rpow_of_exponent_le (by norm_num) hexp
    constructor
    · intro h5
      rw [hform, if_neg h5, mul_one]
      exact ⟨le_min hpow (by norm_num), min_le_right _ _⟩
    · intro h5
      rw [hform, if_pos h5]
      refine ⟨le_min ?_ (by norm_num), min_le_right _ _⟩
      nlinarith

/-- Witness for C8 (amended) at `rssi = -40` with both frequency
branches. -/
theorem calculate_rssi_distance_range_witness :
    (-40 : ℝ) ≠ 0 ∧ (2.4 : ℝ) ≠ 5.0 ∧
      (1 ≤ calculate_rssi_distance (-40) 2.4 ∧
        calculate_rssi_distance (-40) 2.4 ≤ 100) ∧
      (0.8 ≤ calculate_rssi_distance (-40) 5.0 ∧
        calculate_rssi_distance (-40) 5.0 ≤ 100) :=
  ⟨by norm_num, by norm_num,
    (calculate_rssi_distance_range (-40) 2.4 (by norm_num)).1 (by norm_num),
    (calculate_rssi_distance_range (-40) 5.0 (by norm_num)).2 rfl⟩

end RssiDistance

/-! ## NPV (ft3.py, `calculate_financial_metrics`) -/

/-- The monthly discount rate `0.08 / 12` used by both VAN code paths. -/
def monthly_rate : ℚ := (8 / 100) / 12

/-- Accumulator for `pf_npv`: discounts each remaining cash flow at its
position `i` in the original list. -/
def npvAux (rate : ℚ) : List ℚ → ℕ → ℚ
  | [], _ => 0
  | v :: rest, i => v / (1 + rate) ^ i + npvAux rate rest (i + 1)

/-- The financial-math library NPV the source delegates to
(`pf.npv(rate=..., values=...)`); its code is not part of this
repository.  Per the spec it discounts the cash-flow list at the given
per-period rate: `npv = Σ_i values[i] / (1 + rate)^i`. -/
def pf_npv (rate : ℚ) (values : List ℚ) : ℚ :=
  npvAux rate values 0

/-- The library code path of `calculate_financial_metrics` for
`cash_flow_mensuel > 0`: `pf.npv` over the synthetic constant cash-flow
list `[-total_immobilisations] + [cash_flow_mensuel] * 60` at the
monthly rate. -/
def van_library (total_immobilisations cash_flow_mensuel : ℚ) : ℚ :=
  pf_npv monthly_rate ([-total_immobilisations] ++ List.replicate 60 cash_flow_mensuel)

/-- The fallback VAN loop of `calculate_financial_metrics` (when the
library is unavailable) for `cash_flow_mensuel > 0`:
`van = -total_immobilisations` then
`for i in range(60): van += cash_flow_mensuel / (1 + monthly_rate) ** (i + 1)`. -/
def van_fallback (total_immobilisations cash_flow_mensuel : ℚ) : ℚ :=
  (List.range 60).foldl
    (fun van i => van + cash_flow_mensuel / (1 + monthly_rate) ^ (i + 1))
    (-total_immobilisations)

/-- The closed form named by the claim:
`-I + Σ_{i = 1..60} CF / (1 + 0.08/12)^i`. -/
def van_closed_form (total_immobilisations cash_flow_mensuel : ℚ) : ℚ :=
  -total_immobilisations +
    ∑ i ∈ Finset.range 60, cash_flow_mensuel / (1 + monthly_rate) ^ (i + 1)

theorem npvAux_replicate (rate cf : ℚ) :
    ∀ (n k : ℕ),
      npvAux rate (List.replicate n cf) k
        = ∑ i ∈ Finset.range n, cf / (1 + rate) ^ (k + i) := by
  intro n
  induction n with
  | zero => intro k; simp [npvAux]
  | succ j ih =>
    intro k
    rw [List.replicate_succ, npvAux, ih, Finset.sum_range_succ']
    simp only [Nat.add_zero, pow_zero]
    rw [add_comm]
    congr 1
    refine Finset.sum_congr rfl fun i _ => ?_
    rw [show k + 1 + i = k + (i + 1) by omega]

theorem foldl_van (cf : ℚ) :
    ∀ (n : ℕ) (a : ℚ),
      (List.range n).foldl (fun van i => van + cf / (1 + monthly_rate) ^ (i + 1)) a
        = a + ∑ i ∈ Finset.range n, cf / (1 + monthly_rate) ^ (i + 1) := by
  intro n
  induction n with
  | zero => intro a; simp
  | succ j ih =>
    intro a
    rw [List.range_succ, List.foldl_append, ih, Finset.sum_range_succ]
    simp only [List.foldl_cons, List.foldl_nil]
    ring

/-- C4: the fallback VAN loop and the library path on the synthetic list
`[-I] + [CF] * 60` agree for every `I` and every monthly cash flow
`CF > 0`, and both equal `-I + Σ_{i = 1..60} CF / (1 + 0.08/12)^i`. -/
theorem van_paths_agree (total_immobilisations cash_flow_mensuel : ℚ)
    (_hcf : 0 < cash_flow_mensuel) :
    van_fallback total_immobilisations cash_flow_mensuel
        = van_library total_immobilisations cash_flow_mensuel ∧
      van_library total_immobilisations cash_flow_mensuel
        = van_closed_form total_immobilisations cash_flow_mensuel := by
  have hlib : van_library total_immobilisations cash_flow_mensuel
      = van_closed_form total_immobilisations cash_flow_mensuel := by
    unfold van_library pf_npv van_closed_form
    rw [List.singleton_append, npvAux, npvAux_replicate]
    simp only [pow_zero, div_one]
    congr 1
  have hfb : van_fallback total_immobilisations cash_flow_mensuel
      = van_closed_form total_immobilisations cash_flow_mensuel := by
    unfold van_fallback van_closed_form
    rw [foldl_van]
  exact ⟨hfb.trans hlib.symm, hlib⟩

/-- Witness for C4 at `I = 100`, `CF = 1`. -/
theorem van_paths_agree_witness :
    (0 : ℚ) < 1 ∧
      (van_fallback 100 1 = van_library 100 1 ∧
        van_library 100 1 = van_closed_form 100 1) :=
  ⟨by norm_num, van_paths_agree 100 1 (by norm_num)⟩

/-! ## Error swallowing (ft3.py, `safe_float_convert` and the TVA block) -/

/-- The kinds of Python values that reach `safe_float_convert`: numbers,
strings, `None`, and list-like containers. -/
inductive PyVal where
  | pyNum (q : ℚ)
  | pyStr (s : String)
  | pyNone
  | pyListV (elems : List ℚ)
deriving DecidableEq, Repr

/-- The exceptions `float(x)` raises on these values, exactly the two
caught by `safe_float_convert`'s `except (ValueError, TypeError)`. -/
inductive PyFloatError where
  | valueError
  | typeError
deriving DecidableEq, Repr

/-- Value of a digit string (most significant first). -/
def digitsVal (cs : List Char) : ℕ :=
  cs.foldl (fun a c => 10 * a + (c.toNat - 48)) 0

/-- Split a character list at the first `'.'`: the part before it and,
when a dot is present, the part after it. -/
def splitDot : List Char → List Char × Option (List Char)
  | [] => ([], none)
  | c :: r =>
    if c = '.' then ([], some r)
    else
      let p := splitDot r
      (c :: p.1, p.2)

/-- Python's `float(s)` on a string, restricted to plain decimal
literals with an optional sign and an optional decimal point: `none`
models the `ValueError` CPython raises on anything else. -/
def pyParseFloat (s : String) : Option ℚ :=
  let cs := s.toList
  let signAndRest : ℚ × List Char :=
    match cs with
    | '-' :: r => (-1, r)
    | '+' :: r => (1, r)
    | r => (1, r)
  let sign := signAndRest.1
  let rest := signAndRest.2
  match splitDot rest with
  | (ip, none) =>
    if ip.all (·.isDigit) && !ip.isEmpty then some (sign * digitsVal ip)
    else none
  | (ip, some fp) =>
    if ip.all (·.isDigit) && fp.all (·.isDigit) && !(ip.isEmpty && fp.isEmpty) then
      some (sign * ((digitsVal ip : ℚ) + (digitsVal fp : ℚ) / 10 ^ fp.length))
    else none

/-- Python's `float(x)`: numbers convert, strings are parsed
(`ValueError` on failure), `None` and containers raise `TypeError`. -/
def pyFloat : PyVal → Except PyFloatError ℚ
  | .pyNum q => .ok q
  | .pyStr s =>
    match pyParseFloat s with
    | some q => .ok q
    | none => .error .valueError
  | .pyNone => .error .typeError
  | .pyListV _ => .error .typeError

/-- `safe_float_convert` from ft3.py: `float(x)` with `ValueError` and
`TypeError` replaced by `0.0`.  The function is total: no exception
escapes. -/
def safe_float_convert (x : PyVal) : ℚ :=
  match pyFloat x with
  | .ok q => q
  | .error _ => 0

/-- One row of the dataframe the TVA block iterates over; `none` for
`taux_tva` models a row whose VAT-rate entry is missing or non-numeric,
which makes the `df.apply` lambda raise. -/
structure LineItem where
  type : String
  montant : ℚ
  taux_tva : Option ℚ
deriving DecidableEq, Repr

/-- The `df.apply` lambda `x['montant'] * (x['taux_tva'] / 100)` on one
row. -/
def rowTva (r : LineItem) : Except PyFloatError ℚ :=
  match r.taux_tva with
  | some t => .ok (r.montant * (t / 100))
  | none => .error .typeError

/-- `df[df['type'] == ty].apply(...).sum()`: sum of the per-row VAT over
the rows of the given type, propagating the first exception. -/
def sumTva (rows : List LineItem) (ty : String) : Except PyFloatError ℚ :=
  rows.foldr
    (fun r acc =>
      if r.type = ty then do
        let v ← rowTva r
        let s ← acc
        pure (v + s)
      else acc)
    (.ok 0)

/-- The four metrics assigned by the TVA block. -/
structure TvaMetrics where
  tva_collectee : ℚ
  tva_deductible_achats : ℚ
  tva_deductible_immo : ℚ
  tva_nette : ℚ
deriving DecidableEq, Repr

/-- The `try` body of the TVA block of `calculate_financial_metrics`:
the three filtered sums, in source order. -/
def tvaTry (rows : List LineItem) : Except PyFloatError (ℚ × ℚ × ℚ) := do
  let collectee ← sumTva rows "ventes"
  let achats ← sumTva rows "charges"
  let immo ← sumTva rows "immobilisation"
  pure (collectee, achats, immo)

/-- The whole TVA block: on success it stores the three sums and
`tva_nette = collectee - achats - immo`; on any exception it sets all
four metrics to `0`.  The function is total: no exception escapes. -/
def computeTvaMetrics (rows : List LineItem) : TvaMetrics :=
  match tvaTry rows with
  | .ok (c, a, m) => ⟨c, a, m, c - a - m⟩
  | .error _ => ⟨0, 0, 0, 0⟩

/-- C7: `safe_float_convert` returns `float(x)` when the conversion
succeeds and `0.0` for every input raising `ValueError` or `TypeError`,
and the TVA block yields the computed sums on success and all-zero
metrics whenever any exception occurs; both are total functions, so no
exception escapes to the caller. -/
theorem error_swallowing_spec (x : PyVal) (q : ℚ) (e : PyFloatError)
    (rows : List LineItem) (c a m : ℚ) (e2 : PyFloatError) :
    (pyFloat x = .ok q → safe_float_convert x = q) ∧
    (pyFloat x = .error e → safe_float_convert x = 0) ∧
    (tvaTry rows = .ok (c, a, m) →
      computeTvaMetrics rows = ⟨c, a, m, c - a - m⟩) ∧
    (tvaTry rows = .error e2 → computeTvaMetrics rows = ⟨0, 0, 0, 0⟩) := by
  refine ⟨?_, ?_, ?_, ?_⟩
  · intro h; unfold safe_float_convert; rw [h]
  · intro h; unfold safe_float_convert; rw [h]
  · intro h; unfold computeTvaMetrics; rw [h]
  · intro h; unfold computeTvaMetrics; rw [h]

/-- Witness for C7: a parsable string, an unparsable string, a `None`,
and two concrete dataframes (one clean, one with a missing VAT rate). -/
theorem error_swallowing_spec_witness :
    (pyFloat (.pyStr "3.5") = .ok (7 / 2) ∧ safe_float_convert (.pyStr "3.5") = 7 / 2) ∧
    (pyFloat (.pyStr "abc") = .error .valueError ∧ safe_float_convert (.pyStr "abc") = 0) ∧
    (pyFloat .pyNone = .error .typeError ∧ safe_float_convert .pyNone = 0) ∧
    (tvaTry [⟨"ventes", 100, some 20⟩, ⟨"charges", 50, some 10⟩] = .ok (20, 5, 0) ∧
      computeTvaMetrics [⟨"ventes", 100, some 20⟩, ⟨"charges", 50, some 10⟩]
        = ⟨20, 5, 0, 20 - 5 - 0⟩) ∧
    (tvaTry [⟨"ventes", 100, none⟩] = .error .typeError ∧
      computeTvaMetrics [⟨"ventes", 100, none⟩] = ⟨0, 0, 0, 0⟩) :=
  ⟨⟨by simp [pyFloat, pyParseFloat, splitDot, digitsVal]; norm_num,
      (error_swallowing_spec (.pyStr "3.5") (7 / 2) .valueError [] 0 0 0
        .valueError).1
        (by simp [pyFloat, pyParseFloat, splitDot, digitsVal]; norm_num)⟩,
    ⟨by rfl, (error_swallowing_spec (.pyStr "abc") 0 .valueError [] 0 0 0
      .valueError).2.1 (by rfl)⟩,
    ⟨by rfl, (error_swallowing_spec .pyNone 0 .typeError [] 0 0 0
      .valueError).2.1 (by rfl)⟩,
    ⟨by simp [tvaTry, sumTva, rowTva, Bind.bind, Except.bind, pure, Except.pure]; norm_num,
      (error_swallowing_spec .pyNone 0 .typeError
        [⟨"ventes", 100, some 20⟩, ⟨"charges", 50, some 10⟩] 20 5 0
        .valueError).2.2.1
        (by simp [tvaTry, sumTva, rowTva, Bind.bind, Except.bind, pure, Except.pure]; norm_num)⟩,
    ⟨by simp [tvaTry, sumTva, rowTva, Bind.bind, Except.bind, pure, Except.pure],
      (error_swallowing_spec .pyNone 0 .typeError
        [⟨"ventes", 100, none⟩] 0 0 0 .typeError).2.2.2
        (by simp [tvaTry, sumTva, rowTva, Bind.bind, Except.bind, pure, Except.pure])⟩⟩

/-! ## Persistence steps (ft3.py `save_data`; p4.py `create_input`,
`create_editable_table`, `create_competitor_comparison_table`) -/

/-- A value stored under a key of p4.py's `saved_data` dictionary: a
text field (from `create_input`) or a table (from the table helpers,
stored via `to_dict`). -/
inductive FormValue where
  | text (s : String)
  | table (rows : List (List String))
deriving DecidableEq, Repr

/-- The user-interaction steps relevant to persistence, covering every
`save_data` call site: the explicit save action (ft3.py sidebar button
calling `save_data`); rendering a p4.py `create_input` field with the
widget's current value; rendering a p4.py `create_editable_table` (also
reached through `create_expandable_table`) with its default `data` and
the editor's current table; and rendering p4.py's
`create_competitor_comparison_table` (its embedded `create_input` and
data-editor interactions are separate steps of the first two kinds). -/
inductive InteractionStep where
  | clickSave
  | editInput (key : String) (value : String)
  | editTable (key : String) (data edited : List (List String))
  | renderCompetitorTable
deriving DecidableEq, Repr

/-- Whether an interaction step writes session/form state to disk, given
the current saved dictionary.  From the source: ft3.py's `save_data`
writes the session JSON when the save action runs; `create_input` calls
`save_data(saved_data)` whenever `user_input != saved_data.get(key)`
(p4.py line 54); `create_editable_table` calls it whenever the edited
table differs from `saved_data.get(key, data)` (p4.py line 70); and
`create_competitor_comparison_table` calls it unconditionally at the end
of every render (p4.py line 165), besides its conditional table save. -/
def stepWritesToDisk (saved_data : List (String × FormValue)) :
    InteractionStep → Bool
  | .clickSave => true
  | .editInput key value => saved_data.lookup key != some (.text value)
  | .editTable key data edited =>
    (saved_data.lookup key).getD (.table data) != FormValue.table edited
  | .renderCompetitorTable => true

/-- Counterexample for C6 as stated: rendering a p4.py `create_input`
widget whose value differs from the stored one writes to disk, yet it is
not the explicit save action. -/
theorem save_only_on_click_counterexample :
    stepWritesToDisk [] (.editInput "company_name" "Acme") = true ∧
      InteractionStep.editInput "company_name" "Acme" ≠ .clickSave := by
  exact ⟨by decide, by decide⟩

/-- C6 amended: the explicit save action always writes, but it is not
the only step that does: a p4.py `create_input` render writes exactly
when the widget value differs from the stored value, a
`create_editable_table` render writes exactly when the edited table
differs from the stored (or default) table, and every render of
`create_competitor_comparison_table` writes unconditionally. -/
theorem stepWritesToDisk_spec (saved_data : List (String × FormValue))
    (key value : String) (data edited : List (List String)) :
    stepWritesToDisk saved_data .clickSave = true ∧
    (stepWritesToDisk saved_data (.editInput key value) = true ↔
      saved_data.lookup key ≠ some (.text value)) ∧
    (stepWritesToDisk saved_data (.editTable key data edited) = true ↔
      (saved_data.lookup key).getD (.table data) ≠ .table edited) ∧
    stepWritesToDisk saved_data .renderCompetitorTable = true := by
  refine ⟨rfl, ?_, ?_, rfl⟩
  · simp [stepWritesToDisk]
  · simp [stepWritesToDisk]

end FinanceApp
